import Mathlib

/-!
Shallow embedding of the contact-management screen:
`src/components/contacts/ContactAnalyticsDashboard.tsx` (analytics aggregates
and the fetch handler) and `src/pages/Contacts.tsx` (page state, view toggle,
bulk delete).  JavaScript numbers are modelled as rationals, optional fields
as `Option`, and the falsy coalescing `x || d` explicitly (the empty string
and the number 0 are falsy).
-/

namespace InsideSales

/-- Contact row shape from `ContactAnalyticsDashboard.tsx` lines 8-17:
`id`, `contact_name` required, the rest optional; `score` numeric. -/
structure Contact where
  id : String
  contact_name : String
  company_name : Option String := none
  contact_source : Option String := none
  industry : Option String := none
  region : Option String := none
  segment : Option String := none
  score : Option ℚ := none
deriving DecidableEq, Repr

/-- JavaScript `s || dflt` for an optional string field: `undefined`, `null`
and the empty string are falsy and yield the default. -/
def jsOrStr (o : Option String) (dflt : String) : String :=
  match o with
  | none => dflt
  | some s => if s = "" then dflt else s

/-- JavaScript truthiness of an optional string (used by
`contacts.filter(c => c.company_name)`): truthy iff present and non-empty. -/
def jsTruthyStr (o : Option String) : Bool :=
  match o with
  | none => false
  | some s => s ≠ ""

/-- JavaScript `c.score || 0`: a missing score yields 0 (and a present score
of 0 also yields 0, which coincides with just taking the value). -/
def jsScore (o : Option ℚ) : ℚ := o.getD 0

/-- Summary statistics, `stats` memo of the dashboard (lines 44-52). -/
structure Stats where
  totalContacts : ℕ
  avgScore : ℤ
  withCompany : ℕ
  withSource : ℕ
deriving DecidableEq, Repr

/-- The `stats` memo: total count, `Math.round` of the mean score (0 for an
empty list; `Math.round x = ⌊x + 1/2⌋`, which is Mathlib's `round` on ℚ),
and counts of contacts with a truthy company / source. -/
def stats (contacts : List Contact) : Stats :=
  { totalContacts := contacts.length
    avgScore :=
      if contacts.length > 0 then
        round ((contacts.foldl (fun sum c => sum + jsScore c.score) 0) /
          (contacts.length : ℚ))
      else 0
    withCompany := (contacts.filter (fun c => jsTruthyStr c.company_name)).length
    withSource := (contacts.filter (fun c => jsTruthyStr c.contact_source)).length }

/-- One step of building a JS `Record<string, number>` of group counts in
insertion order: `rec[k] = (rec[k] || 0) + 1`.  An existing key is bumped in
place, a new key is appended at the end (JS objects preserve insertion order
for string keys, and `Object.entries` reads them back in that order). -/
def bumpKey (k : String) : List (String × ℕ) → List (String × ℕ)
  | [] => [(k, 1)]
  | (k', v) :: rest =>
      if k' = k then (k', v + 1) :: rest else (k', v) :: bumpKey k rest

/-- Grouped frequency count over the contact list under a key function:
the `forEach` accumulation plus `Object.entries(...).map(([name, value]) =>
({name, value}))` shared by `sourceData`, `industryData` and `segmentData`. -/
def groupCounts (key : Contact → String) (contacts : List Contact) :
    List (String × ℕ) :=
  contacts.foldl (fun acc c => bumpKey (key c) acc) []

/-- `sourceData` memo (lines 55-62): counts by `contact_source || 'Unknown'`. -/
def sourceData (contacts : List Contact) : List (String × ℕ) :=
  groupCounts (fun c => jsOrStr c.contact_source "Unknown") contacts

/-- `segmentData` memo (lines 78-85): counts by `segment || 'Prospect'`. -/
def segmentData (contacts : List Contact) : List (String × ℕ) :=
  groupCounts (fun c => jsOrStr c.segment "Prospect") contacts

/-- Industry groups before sorting and truncation (lines 66-72):
counts by `industry || 'Unknown'`. -/
def industryGroups (contacts : List Contact) : List (String × ℕ) :=
  groupCounts (fun c => jsOrStr c.industry "Unknown") contacts

/-- Stable insertion of a pair into a list sorted by non-increasing count:
the new pair goes in front of the first entry whose count is not larger,
so among equal counts an earlier-inserted pair stays in front. -/
def insertDesc (p : String × ℕ) : List (String × ℕ) → List (String × ℕ)
  | [] => [p]
  | q :: rest => if q.2 ≤ p.2 then p :: q :: rest else q :: insertDesc p rest

/-- Stable sort by non-increasing count, modelling the stable JS
`Array.prototype.sort((a, b) => b.value - a.value)`. -/
def sortDesc : List (String × ℕ) → List (String × ℕ)
  | [] => []
  | p :: rest => insertDesc p (sortDesc rest)

/-- `industryData` memo (lines 65-75): group counts by industry, sorted by
descending count, truncated by `.slice(0, 8)` to the top 8 entries. -/
def industryData (contacts : List Contact) : List (String × ℕ) :=
  (sortDesc (industryGroups contacts)).take 8

/-- One score bucket of the `scoreData` memo: label, inclusive bounds,
mutable running count (lines 89-95). -/
structure ScoreRange where
  range : String
  min : ℚ
  max : ℚ
  count : ℕ
deriving DecidableEq, Repr

/-- The five fixed buckets with the given running counts. -/
def mkRanges (c0 c1 c2 c3 c4 : ℕ) : List ScoreRange :=
  [⟨"0-20", 0, 20, c0⟩, ⟨"21-40", 21, 40, c1⟩, ⟨"41-60", 41, 60, c2⟩,
   ⟨"61-80", 61, 80, c3⟩, ⟨"81-100", 81, 100, c4⟩]

/-- `ranges.find(r => score >= r.min && score <= r.max)` followed by
`range.count++`: bump the first bucket containing the score, if any. -/
def bumpFirst (s : ℚ) : List ScoreRange → List ScoreRange
  | [] => []
  | r :: rest =>
      if r.min ≤ s ∧ s ≤ r.max then
        { r with count := r.count + 1 } :: rest
      else r :: bumpFirst s rest

/-- `scoreData` memo (lines 88-102): count each contact's `score || 0` into
the first bucket containing it, then emit `(name, count)` pairs. -/
def scoreData (contacts : List Contact) : List (String × ℕ) :=
  (contacts.foldl (fun rs c => bumpFirst (jsScore c.score) rs)
      (mkRanges 0 0 0 0 0)).map (fun r => (r.range, r.count))

/-- Sum of the per-group counts of a frequency table. -/
def sumVals (l : List (String × ℕ)) : ℕ := (l.map (fun p => p.2)).sum

/-- Number of contacts whose effective score lies in `[lo, hi]`. -/
def countInBucket (lo hi : ℚ) (contacts : List Contact) : ℕ :=
  (contacts.filter (fun c => decide (lo ≤ jsScore c.score ∧ jsScore c.score ≤ hi))).length

/-! ### Dashboard fetch (`fetchContacts`, lines 27-41) -/

/-- Declarative query issued by the dashboard fetch:
`supabase.from('contacts').select(columns).order('contact_name')`. -/
structure Query where
  table : String
  columns : List String
  orderBy : Option String
deriving DecidableEq, Repr

/-- The query built at lines 30-33 of `ContactAnalyticsDashboard.tsx`. -/
def contactsQuery : Query :=
  { table := "contacts"
    columns := ["id", "contact_name", "company_name", "contact_source",
      "industry", "region", "segment", "score"]
    orderBy := some "contact_name" }

/-- Dashboard component state: the fetched rows and the loading flag. -/
structure DashState where
  contacts : List Contact
  loading : Bool
deriving DecidableEq, Repr

/-- Backend response to the fetch: an error, or data that may be `null`. -/
abbrev FetchResp := Except Unit (Option (List Contact))

/-- State after `fetchContacts` runs to completion with the given backend
response: on success `contacts` becomes `data || []`; on error the rows are
untouched (only `console.error` runs); the `finally` block always ends with
`loading` false. -/
def fetchContacts (st : DashState) (resp : FetchResp) : DashState :=
  match resp with
  | .ok data => { contacts := data.getD [], loading := false }
  | .error _ => { st with loading := false }

/-! ### Page component `Contacts.tsx`: state, events, bulk delete -/

/-- The two-valued view-mode union type `'table' | 'analytics'` (line 16). -/
inductive ViewMode where
  | table
  | analytics
deriving DecidableEq, Repr

/-- The `useState` pieces of the `Contacts` page (lines 16-21). -/
structure PageState where
  viewMode : ViewMode
  showColumnCustomizer : Bool
  showModal : Bool
  selectedContacts : List String
  refreshTrigger : ℕ
deriving DecidableEq, Repr

/-- Initial page state: the `useState` initialisers. -/
def initPageState : PageState :=
  { viewMode := .table
    showColumnCustomizer := false
    showModal := false
    selectedContacts := []
    refreshTrigger := 0 }

/-- Observable effects emitted by the bulk-delete handler. -/
inductive Effect where
  | deleteReq (table : String) (ids : List String)
  | auditLog (table : String) (count : ℕ) (ids : List String)
  | toast (title : String) (description : String) (destructive : Bool)
deriving DecidableEq, Repr

/-- `handleBulkDelete` (lines 45-64): early return on an empty selection;
otherwise one `delete().in('id', selectedContacts)` request.  On success the
audit log and success toast run, the selection is cleared and the refresh
trigger bumped; if the backend reports an error the catch shows a
destructive toast and changes no state. -/
def handleBulkDelete (st : PageState) (deleteError : Bool) :
    PageState × List Effect :=
  if st.selectedContacts = [] then (st, [])
  else
    let req := Effect.deleteReq "contacts" st.selectedContacts
    if deleteError then
      (st, [req, .toast "Error" "Failed to delete contacts" true])
    else
      ({ st with selectedContacts := [], refreshTrigger := st.refreshTrigger + 1 },
       [req,
        .auditLog "contacts" st.selectedContacts.length st.selectedContacts,
        .toast "Success"
          (toString st.selectedContacts.length ++ " contacts deleted successfully")
          false])

/-- Events the page handles (view toggle buttons, dialog toggles, table
selection callback, refresh, bulk delete with the backend's error flag). -/
inductive Event where
  | setViewMode (vm : ViewMode)
  | setShowColumnCustomizer (b : Bool)
  | setShowModal (b : Bool)
  | setSelectedContacts (ids : List String)
  | refresh
  | bulkDelete (deleteError : Bool)
deriving DecidableEq, Repr

/-- State transition of the `Contacts` page on one event. -/
def step (st : PageState) : Event → PageState
  | .setViewMode vm => { st with viewMode := vm }
  | .setShowColumnCustomizer b => { st with showColumnCustomizer := b }
  | .setShowModal b => { st with showModal := b }
  | .setSelectedContacts ids => { st with selectedContacts := ids }
  | .refresh => { st with refreshTrigger := st.refreshTrigger + 1 }
  | .bulkDelete err => (handleBulkDelete st err).1

/-- States reachable from the initial page state. -/
inductive Reachable : PageState → Prop where
  | init : Reachable initPageState
  | step : ∀ {st} (e : Event), Reachable st → Reachable (step st e)

/-- The two main-content presentations (line 139 onward). -/
inductive Rendered where
  | analyticsView
  | tableView
deriving DecidableEq, Repr

/-- Main content chosen at lines 139-151:
`viewMode === 'analytics' ? <ContactAnalyticsDashboard/> : <ContactTable/>`. -/
def renderMain (st : PageState) : Rendered :=
  if st.viewMode = .analytics then .analyticsView else .tableView

/-! ### Helper lemmas -/

theorem sumVals_bumpKey (k : String) (l : List (String × ℕ)) :
    sumVals (bumpKey k l) = sumVals l + 1 := by
  induction l with
  | nil => simp [bumpKey, sumVals]
  | cons p rest ih =>
      obtain ⟨k', v⟩ := p
      by_cases h : k' = k <;> simp [bumpKey, h, sumVals] at ih ⊢ <;> omega

theorem sumVals_foldl_bump (key : Contact → String) (l : List Contact) :
    ∀ acc : List (String × ℕ),
      sumVals (l.foldl (fun a c => bumpKey (key c) a) acc) =
        sumVals acc + l.length := by
  induction l with
  | nil => intro acc; simp
  | cons c rest ih =>
      intro acc
      simp only [List.foldl_cons, List.length_cons]
      rw [ih, sumVals_bumpKey]
      omega

theorem sumVals_groupCounts (key : Contact → String) (l : List Contact) :
    sumVals (groupCounts key l) = l.length := by
  have h := sumVals_foldl_bump key l []
  simpa [groupCounts, sumVals] using h

theorem insertDesc_perm (p : String × ℕ) (l : List (String × ℕ)) :
    List.Perm (insertDesc p l) (p :: l) := by
  induction l with
  | nil => simp [insertDesc]
  | cons q rest ih =>
      by_cases h : q.2 ≤ p.2
      · simp [insertDesc, h]
      · simp only [insertDesc, if_neg h]
        exact ((ih.cons q).trans (List.Perm.swap p q rest))

theorem sortDesc_perm (l : List (String × ℕ)) : List.Perm (sortDesc l) l := by
  induction l with
  | nil => simp [sortDesc]
  | cons p rest ih =>
      exact (insertDesc_perm p (sortDesc rest)).trans (ih.cons p)

theorem pairwise_insertDesc (p : String × ℕ) (l : List (String × ℕ))
    (h : l.Pairwise (fun a b => b.2 ≤ a.2)) :
    (insertDesc p l).Pairwise (fun a b => b.2 ≤ a.2) := by
  induction l with
  | nil => simp [insertDesc]
  | cons q rest ih =>
      rcases h with - | ⟨hq, hrest⟩
      by_cases hle : q.2 ≤ p.2
      · simp only [insertDesc, if_pos hle]
        refine List.Pairwise.cons ?_ (List.Pairwise.cons hq hrest)
        intro b hb
        rcases List.mem_cons.mp hb with rfl | h2
        · exact hle
        · exact le_trans (hq b h2) hle
      · simp only [insertDesc, if_neg hle]
        refine List.Pairwise.cons ?_ (ih hrest)
        intro b hb
        have hmem := (insertDesc_perm p rest).mem_iff.mp hb
        rcases List.mem_cons.mp hmem with rfl | h2
        · exact le_of_not_le hle
        · exact hq b h2

theorem pairwise_sortDesc (l : List (String × ℕ)) :
    (sortDesc l).Pairwise (fun a b => b.2 ≤ a.2) := by
  induction l with
  | nil => simp [sortDesc]
  | cons p rest ih => exact pairwise_insertDesc p (sortDesc rest) ih

theorem sumVals_perm {l l' : List (String × ℕ)} (h : List.Perm l l') :
    sumVals l = sumVals l' := by
  simpa [sumVals] using (h.map (fun p => p.2)).sum_eq

theorem sumVals_take_le (n : ℕ) (l : List (String × ℕ)) :
    sumVals (l.take n) ≤ sumVals l := by
  simp only [sumVals, List.map_take]
  calc (List.take n (l.map fun p => p.2)).sum
      ≤ (List.take n (l.map fun p => p.2)).sum +
          (List.drop n (l.map fun p => p.2)).sum := Nat.le_add_right _ _
    _ = (l.map fun p => p.2).sum := by
          rw [← List.sum_append, List.take_append_drop]

/-- Indicator of a score landing in the inclusive bucket `[lo, hi]`. -/
def bucketHit (lo hi s : ℚ) : ℕ := if lo ≤ s ∧ s ≤ hi then 1 else 0

theorem countInBucket_cons (lo hi : ℚ) (c : Contact) (l : List Contact) :
    countInBucket lo hi (c :: l) =
      bucketHit lo hi (jsScore c.score) + countInBucket lo hi l := by
  simp only [countInBucket, bucketHit, List.filter_cons]
  split
  · simp_all
    omega
  · simp_all

theorem bumpFirst_mk (s : ℚ) (c0 c1 c2 c3 c4 : ℕ) :
    bumpFirst s (mkRanges c0 c1 c2 c3 c4) =
      mkRanges (c0 + bucketHit 0 20 s) (c1 + bucketHit 21 40 s)
        (c2 + bucketHit 41 60 s) (c3 + bucketHit 61 80 s)
        (c4 + bucketHit 81 100 s) := by
  simp only [bumpFirst, mkRanges, bucketHit]
  split_ifs <;> simp_all <;> linarith

theorem foldl_bumpFirst (l : List Contact) :
    ∀ c0 c1 c2 c3 c4 : ℕ,
      l.foldl (fun rs c => bumpFirst (jsScore c.score) rs)
          (mkRanges c0 c1 c2 c3 c4) =
        mkRanges (c0 + countInBucket 0 20 l) (c1 + countInBucket 21 40 l)
          (c2 + countInBucket 41 60 l) (c3 + countInBucket 61 80 l)
          (c4 + countInBucket 81 100 l) := by
  induction l with
  | nil => intro c0 c1 c2 c3 c4; simp [countInBucket]
  | cons c rest ih =>
      intro c0 c1 c2 c3 c4
      simp only [List.foldl_cons, bumpFirst_mk, ih, countInBucket_cons]
      simp [mkRanges]
      omega

theorem scoreData_eq (l : List Contact) :
    scoreData l =
      [("0-20", countInBucket 0 20 l), ("21-40", countInBucket 21 40 l),
       ("41-60", countInBucket 41 60 l), ("61-80", countInBucket 61 80 l),
       ("81-100", countInBucket 81 100 l)] := by
  simp only [scoreData]
  rw [foldl_bumpFirst l 0 0 0 0 0]
  simp [mkRanges]

theorem bucketHit_sum_le (s : ℚ) :
    bucketHit 0 20 s + bucketHit 21 40 s + bucketHit 41 60 s +
      bucketHit 61 80 s + bucketHit 81 100 s ≤ 1 := by
  simp only [bucketHit]
  split_ifs <;> simp_all <;> linarith

theorem sum_countInBucket_le (l : List Contact) :
    countInBucket 0 20 l + countInBucket 21 40 l + countInBucket 41 60 l +
      countInBucket 61 80 l + countInBucket 81 100 l ≤ l.length := by
  induction l with
  | nil => simp [countInBucket]
  | cons c rest ih =>
      simp only [countInBucket_cons, List.length_cons]
      have h := bucketHit_sum_le (jsScore c.score)
      omega

theorem foldl_score (l : List Contact) :
    ∀ a : ℚ, l.foldl (fun sum c => sum + jsScore c.score) a =
      a + (l.map (fun c => jsScore c.score)).sum := by
  induction l with
  | nil => intro a; simp
  | cons c rest ih => intro a; simp [ih, add_assoc]

/-- The list of delete requests among a list of effects. -/
def deleteRequests : List Effect → List (String × List String)
  | [] => []
  | .deleteReq t ids :: rest => (t, ids) :: deleteRequests rest
  | .auditLog _ _ _ :: rest => deleteRequests rest
  | .toast _ _ _ :: rest => deleteRequests rest

/-- Mean score rounded to the nearest integer, written as the spec reads:
the arithmetic mean over the list of per-contact scores (missing treated as
0), rounded, and 0 for the empty list. -/
def specAvgScore (l : List Contact) : ℤ :=
  if l = [] then 0
  else round ((l.map (fun c => jsScore c.score)).sum / (l.length : ℚ))

/-- A contact record with the given id/name and industry, other fields
absent (used as concrete test data). -/
def mkC (n : String) (ind : String) : Contact :=
  { id := n, contact_name := n, industry := some ind }

/-- Nine contacts with nine pairwise distinct industries. -/
def exContacts : List Contact :=
  [mkC "1" "i1", mkC "2" "i2", mkC "3" "i3", mkC "4" "i4", mkC "5" "i5",
   mkC "6" "i6", mkC "7" "i7", mkC "8" "i8", mkC "9" "i9"]

/-- Two contacts sharing one industry. -/
def exSmall : List Contact :=
  [{ mkC "1" "Tech" with score := some 10 },
   { mkC "2" "Tech" with score := some 15 }]

/-! ### Claims -/

/-- C2: the dashboard summary average `stats.avgScore` equals the arithmetic
mean of the per-contact scores (missing score treated as 0), rounded to the
nearest integer, and 0 for the empty list. -/
theorem claim2_avgScore_is_rounded_mean (l : List Contact) :
    (stats l).avgScore = specAvgScore l := by
  by_cases h : l = []
  · subst h; simp [stats, specAvgScore]
  · have hpos : 0 < l.length := List.length_pos.mpr h
    simp only [stats, specAvgScore, if_neg h, if_pos hpos, foldl_score]
    norm_num

/-- C3: for a non-empty selection, the bulk-delete handler issues exactly one
delete request, against the `contacts` table, naming precisely the selected
ids — whatever the backend then answers. -/
theorem claim3_bulk_delete_request (st : PageState) (err : Bool)
    (h : st.selectedContacts ≠ []) :
    deleteRequests (handleBulkDelete st err).2 =
      [("contacts", st.selectedContacts)] := by
  simp only [handleBulkDelete, if_neg h]
  cases err <;> simp [deleteRequests]

theorem claim3_bulk_delete_request_witness :
    deleteRequests (handleBulkDelete
        { initPageState with selectedContacts := ["a", "b"] } false).2 =
      [("contacts", ["a", "b"])] :=
  claim3_bulk_delete_request
    { initPageState with selectedContacts := ["a", "b"] } false (by decide)

/-- C4: with a non-empty selection, the handler clears the selection and bumps
the refresh trigger exactly when the backend delete reports no error; on an
error the page state is unchanged and a destructive error toast is shown
while no success (non-destructive) toast is. -/
theorem claim4_bulk_delete_error_handling (st : PageState) (err : Bool)
    (h : st.selectedContacts ≠ []) :
    (((handleBulkDelete st err).1.selectedContacts = [] ∧
        (handleBulkDelete st err).1.refreshTrigger = st.refreshTrigger + 1) ↔
      err = false) ∧
    (err = true →
      (handleBulkDelete st err).1 = st ∧
      Effect.toast "Error" "Failed to delete contacts" true ∈
        (handleBulkDelete st err).2 ∧
      ∀ t d, Effect.toast t d false ∉ (handleBulkDelete st err).2) := by
  cases err <;> simp [handleBulkDelete, if_neg h, h]

theorem claim4_bulk_delete_error_handling_witness :
    ((handleBulkDelete { initPageState with selectedContacts := ["a"] } true).1 =
        { initPageState with selectedContacts := ["a"] }) ∧
    ((handleBulkDelete { initPageState with selectedContacts := ["a"] } false).1.selectedContacts = []) :=
  ⟨((claim4_bulk_delete_error_handling
      { initPageState with selectedContacts := ["a"] } true (by decide)).2 rfl).1,
   ((claim4_bulk_delete_error_handling
      { initPageState with selectedContacts := ["a"] } false (by decide)).1.mpr rfl).1⟩

/-- C5: the dashboard fetch queries the `contacts` table ordered by
`contact_name`; after `fetchContacts` completes, `loading` is false in every
case, `contacts` equals the fetched rows (empty when the data is null), and
on an error `contacts` is unchanged. -/
theorem claim5_fetch_contacts :
    contactsQuery.table = "contacts" ∧
    contactsQuery.orderBy = some "contact_name" ∧
    ∀ (st : DashState) (resp : FetchResp),
      (fetchContacts st resp).loading = false ∧
      (∀ e, resp = .error e → (fetchContacts st resp).contacts = st.contacts) ∧
      (∀ d, resp = .ok d → (fetchContacts st resp).contacts = d.getD []) := by
  refine ⟨rfl, rfl, fun st resp => ?_⟩
  cases resp <;> simp [fetchContacts]

theorem claim5_fetch_contacts_witness :
    (fetchContacts ⟨exSmall, true⟩ (.error ())).contacts = exSmall ∧
    (fetchContacts ⟨exSmall, true⟩ (.error ())).loading = false ∧
    (fetchContacts ⟨exSmall, true⟩ (.ok none)).contacts = [] :=
  ⟨((claim5_fetch_contacts.2.2 ⟨exSmall, true⟩ (.error ())).2.1 () rfl),
   (claim5_fetch_contacts.2.2 ⟨exSmall, true⟩ (.error ())).1,
   ((claim5_fetch_contacts.2.2 ⟨exSmall, true⟩ (.ok none)).2.2 none rfl)⟩

/-- C6: in every reachable page state the view mode is `table` or
`analytics`, and the analytics dashboard is rendered exactly when the view
mode is `analytics`, the contact table exactly otherwise. -/
theorem claim6_view_mode (st : PageState) (_h : Reachable st) :
    (st.viewMode = ViewMode.table ∨ st.viewMode = ViewMode.analytics) ∧
    (renderMain st = Rendered.analyticsView ↔ st.viewMode = ViewMode.analytics) ∧
    (renderMain st = Rendered.tableView ↔ st.viewMode ≠ ViewMode.analytics) := by
  cases hv : st.viewMode <;> simp [renderMain, hv]

theorem claim6_view_mode_witness :
    (initPageState.viewMode = ViewMode.table ∨
      initPageState.viewMode = ViewMode.analytics) ∧
    (renderMain initPageState = Rendered.analyticsView ↔
      initPageState.viewMode = ViewMode.analytics) ∧
    (renderMain initPageState = Rendered.tableView ↔
      initPageState.viewMode ≠ ViewMode.analytics) :=
  claim6_view_mode initPageState Reachable.init

/-- C7: every derived aggregate of the dashboard is a deterministic pure
function of the contact list: equal input lists yield equal aggregates. -/
theorem claim7_aggregates_deterministic (l1 l2 : List Contact) (h : l1 = l2) :
    stats l1 = stats l2 ∧ sourceData l1 = sourceData l2 ∧
    industryData l1 = industryData l2 ∧ segmentData l1 = segmentData l2 ∧
    scoreData l1 = scoreData l2 := by
  subst h; exact ⟨rfl, rfl, rfl, rfl, rfl⟩

theorem claim7_aggregates_deterministic_witness :
    stats exSmall = stats exSmall ∧ sourceData exSmall = sourceData exSmall ∧
    industryData exSmall = industryData exSmall ∧
    segmentData exSmall = segmentData exSmall ∧
    scoreData exSmall = scoreData exSmall :=
  claim7_aggregates_deterministic exSmall exSmall rfl

/-- C10: with an empty selection the bulk-delete handler is a no-op: no
effect at all is emitted (no delete request, no audit log, no toast) and the
page state is returned unchanged. -/
theorem claim10_bulk_delete_empty_noop (st : PageState) (err : Bool)
    (h : st.selectedContacts = []) :
    handleBulkDelete st err = (st, []) := by
  simp [handleBulkDelete, h]

theorem claim10_bulk_delete_empty_noop_witness :
    handleBulkDelete initPageState true = (initPageState, []) :=
  claim10_bulk_delete_empty_noop initPageState true rfl

/-- C9: the score distribution always consists of exactly the five fixed
buckets in order, and each bucket's count is the number of contacts whose
effective score (0 when missing) lies inclusively between that bucket's
bounds — so a score outside every bucket (negative, above 100, or strictly
between integer bounds like 20.5) is counted nowhere. -/
theorem claim9_score_distribution (l : List Contact) :
    scoreData l =
      [("0-20", countInBucket 0 20 l), ("21-40", countInBucket 21 40 l),
       ("41-60", countInBucket 41 60 l), ("61-80", countInBucket 61 80 l),
       ("81-100", countInBucket 81 100 l)] :=
  scoreData_eq l

/-- C8: for every list of contacts the industry distribution has at most 8
entries and is sorted by non-increasing count, and any group left out of it
has a count no larger than any group kept. -/
theorem claim8_industry_top8 (l : List Contact) :
    (industryData l).length ≤ 8 ∧
    (industryData l).Pairwise (fun a b => b.2 ≤ a.2) ∧
    ∀ p ∈ industryGroups l, p ∉ industryData l →
      ∀ q ∈ industryData l, p.2 ≤ q.2 := by
  refine ⟨?_, ?_, ?_⟩
  · simp [industryData, List.length_take]
  · exact List.Pairwise.sublist (List.take_sublist 8 _) (pairwise_sortDesc _)
  · intro p hp hnot q hq
    simp only [industryData] at hnot hq
    have hsp := pairwise_sortDesc (industryGroups l)
    have hsplit := (List.take_append_drop 8 (sortDesc (industryGroups l))).symm
    rw [hsplit, List.pairwise_append] at hsp
    have hpmem : p ∈ sortDesc (industryGroups l) :=
      (sortDesc_perm _).mem_iff.mpr hp
    rw [hsplit] at hpmem
    rcases List.mem_append.mp hpmem with hin | hin
    · exact absurd hin hnot
    · exact hsp.2.2 q hq p hin

theorem claim8_industry_top8_witness :
    (industryData exContacts).length ≤ 8 ∧
    (industryData exContacts).Pairwise (fun a b => b.2 ≤ a.2) ∧
    (("i9", 1) : String × ℕ).2 ≤ (("i1", 1) : String × ℕ).2 :=
  ⟨(claim8_industry_top8 exContacts).1,
   (claim8_industry_top8 exContacts).2.1,
   (claim8_industry_top8 exContacts).2.2 ("i9", 1) (by decide) (by decide)
     ("i1", 1) (by decide)⟩

/-- C1 counterexample: for nine contacts with nine distinct industries the
industry table is truncated to its top 8 groups, so its counts sum to 8
while the input list has length 9 — the claim that all four grouped tables
sum to the input length is false. -/
theorem claim1_counterexample :
    ¬ (sumVals (sourceData exContacts) = exContacts.length ∧
       sumVals (industryData exContacts) = exContacts.length ∧
       sumVals (segmentData exContacts) = exContacts.length ∧
       sumVals (scoreData exContacts) = exContacts.length) := by
  decide

/-- C1 amended: the source and segment tables always sum to the input
length; the industry and score tables sum to at most the input length — the
industry table because it is truncated to the top 8 groups (it still sums to
the length whenever there are at most 8 distinct groups), the score table
because scores outside every bucket are dropped. -/
theorem claim1_amended_group_sums (l : List Contact) :
    sumVals (sourceData l) = l.length ∧
    sumVals (segmentData l) = l.length ∧
    sumVals (industryData l) ≤ l.length ∧
    sumVals (scoreData l) ≤ l.length ∧
    ((industryGroups l).length ≤ 8 → sumVals (industryData l) = l.length) := by
  have hind : sumVals (sortDesc (industryGroups l)) = l.length := by
    rw [sumVals_perm (sortDesc_perm _), industryGroups, sumVals_groupCounts]
  refine ⟨sumVals_groupCounts _ l, sumVals_groupCounts _ l, ?_, ?_, ?_⟩
  · calc sumVals (industryData l) ≤ sumVals (sortDesc (industryGroups l)) :=
          sumVals_take_le 8 _
      _ = l.length := hind
  · rw [scoreData_eq]
    have h := sum_countInBucket_le l
    simp only [sumVals, List.map_cons, List.map_nil, List.sum_cons,
      List.sum_nil]
    omega
  · intro h8
    have hlen : (sortDesc (industryGroups l)).length ≤ 8 := by
      rw [(sortDesc_perm (industryGroups l)).length_eq]
      exact h8
    simp only [industryData, List.take_of_length_le hlen]
    exact hind

theorem claim1_amended_group_sums_witness :
    sumVals (sourceData exSmall) = exSmall.length ∧
    sumVals (segmentData exSmall) = exSmall.length ∧
    sumVals (industryData exSmall) = exSmall.length :=
  ⟨(claim1_amended_group_sums exSmall).1,
   (claim1_amended_group_sums exSmall).2.1,
   (claim1_amended_group_sums exSmall).2.2.2.2 (by decide)⟩

end InsideSales
